import Mathlib

set_option maxHeartbeats 1000000
set_option maxRecDepth 4000

/- Verification of the retrieval layer of the PrepStack study-assistant
   application: the Embedder (`FileProcessor.createEmbedding`), the Similarity
   Scorer (`FileProcessor.calculateSimilarity`), the per-source Relevance
   Filters and the Aggregator/Ranker of `RAGService`, and the error behaviour
   of `GrokService.generateAnswer` / `RAGService.searchAndAnswer`.

   JavaScript strings are modelled as lists of characters.  JavaScript numbers
   are modelled exactly: the integral/fractional quantities computed by the
   code are rationals, and the square roots taken by the cosine similarity are
   idealised as real square roots (so the similarity functions are real
   valued).  Collaborator calls (database reads, the hosted LLM) are modelled
   by passing their outcome as an explicit argument. -/

abbrev Str := List Char

/-- ASCII lowercasing of a JS string (`String.prototype.toLowerCase`).  The
retrieval code only ever distinguishes ASCII letters, which `Char.toLower`
lowers exactly as JavaScript does. -/
def lowerStr (s : Str) : Str := s.map Char.toLower

/-- A JavaScript word character, i.e. the regex class `\w`:
ASCII letter, digit or underscore. -/
def isWordChar (c : Char) : Bool :=
  ('a' ≤ c && c ≤ 'z') || ('A' ≤ c && c ≤ 'Z') || ('0' ≤ c && c ≤ '9') || c == '_'

/-- An ASCII lowercase letter, i.e. the regex class `[a-z]`. -/
def isLowerAlpha (c : Char) : Bool := 'a' ≤ c && c ≤ 'z'

/-- `needle` occurs at the start of `hay`. -/
def startsWithL : Str → Str → Bool
  | _, [] => true
  | [], _ :: _ => false
  | c :: s, d :: w => c == d && startsWithL s w

/-- `hay.includes(needle)`: `needle` occurs contiguously somewhere in `hay`
(the empty needle occurs in every string, as in JavaScript). -/
def containsL : Str → Str → Bool
  | [], w => w.isEmpty
  | c :: s, w => startsWithL (c :: s) w || containsL s w

mutual
/-- Auxiliary for `splitWs`: scanning inside a word, `acc` holds the reversed
characters of the current piece. -/
def splitWsWord : Str → Str → List Str
  | [], acc => [acc.reverse]
  | c :: rest, acc =>
    if c.isWhitespace then acc.reverse :: splitWsGap rest
    else splitWsWord rest (c :: acc)

/-- Auxiliary for `splitWs`: scanning inside a (consumed) whitespace run. -/
def splitWsGap : Str → List Str
  | [] => [[]]
  | c :: rest => if c.isWhitespace then splitWsGap rest else splitWsWord rest [c]
end

/-- JavaScript `s.split(/\s+/)`: the pieces of `s` between maximal whitespace
runs.  As in JavaScript, a leading (resp. trailing) whitespace run contributes
a leading (resp. trailing) empty piece, and `"".split(/\s+/)` is `[""]`. -/
def splitWs (s : Str) : List Str := splitWsWord s []

/-- Insert `x` into a list sorted descending by `key`, before the first element
whose key is `≤ key x` — the position a stable descending sort gives `x`
relative to elements that originally followed it. -/
def insertDescBy {α : Type} (key : α → ℚ) (x : α) : List α → List α
  | [] => [x]
  | y :: t => if key y ≤ key x then x :: y :: t else y :: insertDescBy key x t

/-- Stable descending sort by a rational key.  `Array.prototype.sort` with the
comparator `(a, b) => key(b) - key(a)` is specified (ES2019) to be a stable
sort for this consistent comparator, and any stable sort for a total preorder
computes the same list, so this insertion sort is extensionally the code's
sort. -/
def sortDescBy {α : Type} (key : α → ℚ) : List α → List α
  | [] => []
  | x :: t => insertDescBy key x (sortDescBy key t)

/- ===============================================================
   part_007 `FileProcessor` — the Embedder and Similarity Scorer the
   specification describes (§4.1, §4.2): sparse term-frequency maps.
   =============================================================== -/

namespace FP7

/-- Maximal runs of word characters of the lowercased text. -/
def wordRuns (text : Str) : List Str :=
  ((lowerStr text).splitOnP (fun c => !isWordChar c)).filter (fun r => !r.isEmpty)

/-- `text.toLowerCase().match(/\b[a-z]{3,}\b/g) || []`: the matches of
`\b[a-z]{3,}\b` are exactly the maximal word-character runs that consist
solely of lowercase letters and have length at least 3 (the word boundaries
forbid any adjacent word character, so a partially alphabetic run never
matches). -/
def tokensOf (text : Str) : List Str :=
  (wordRuns text).filter (fun r => decide (3 ≤ r.length) && r.all isLowerAlpha)

/-- `FileProcessor.createEmbedding` (part_007): the term-frequency map sending
each token to its count divided by the total token count.  A JS object is
modelled as an association list; object keys appear in insertion order, i.e.
order of first occurrence (`List.dedup` keeps the first occurrence). -/
def createEmbedding (text : Str) : List (Str × ℚ) :=
  let ws := tokensOf text
  ws.dedup.map (fun w => (w, (ws.count w : ℚ) / (ws.length : ℚ)))

/-- Reading a key from a JS object modelled as an association list, with the
code's `|| 0` guard: a missing key reads as 0. -/
def lookup0 (m : List (Str × ℚ)) (w : Str) : ℚ :=
  match m with
  | [] => 0
  | (k, v) :: t => if k = w then v else lookup0 t w

/-- The keys of the object (deduplicated: a JS object has no duplicate keys,
and `for…in` visits each key once). -/
def keysOf (m : List (Str × ℚ)) : List Str := (m.map Prod.fst).dedup

/-- The loop over `embedding1`'s keys accumulating `val1 * val2`. -/
def dotP (m1 m2 : List (Str × ℚ)) : ℚ :=
  ((keysOf m1).map (fun w => lookup0 m1 w * lookup0 m2 w)).sum

/-- The accumulated `val * val` over the object's own keys — for `norm1` the
loop over `embedding1`'s keys, for `norm2` the loop over
`Object.values(embedding2)`, whose multiset of values is one per key. -/
def normSq (m : List (Str × ℚ)) : ℚ :=
  ((keysOf m).map (fun w => lookup0 m w * lookup0 m w)).sum

/-- `FileProcessor.calculateSimilarity` (part_007), with floats idealised as
reals.  The code's test `magnitude === 0`, where
`magnitude = Math.sqrt(norm1) * Math.sqrt(norm2)`, holds exactly when
`norm1 = 0 ∨ norm2 = 0`, because `√a · √b = 0 ↔ a = 0 ∨ b = 0` for the
nonnegative sums of squares `a`, `b`. -/
noncomputable def calculateSimilarity (m1 m2 : List (Str × ℚ)) : ℝ :=
  if normSq m1 = 0 ∨ normSq m2 = 0 then 0
  else (dotP m1 m2 : ℝ) / (Real.sqrt (normSq m1) * Real.sqrt (normSq m2))

end FP7

/- ===============================================================
   server/services/fileProcessor.ts `FileProcessor` — the string-typed
   variant the `RAGService` pipeline is wired to: embeddings are JSON
   strings holding an array of numbers.
   =============================================================== -/

/-- A stored embedding string (column type `text`, nullable), classified by
what `JSON.parse` makes of it: the empty string (also standing for a `null`
column read through the code's `|| ''` guard), a string that does not parse
to anything usable as a number array, or a string parsing to a number
array. -/
inductive EmbStr : Type where
  | empty : EmbStr
  | malformed : EmbStr
  | parsed : List ℚ → EmbStr
deriving DecidableEq

namespace FPS

/-- `vec[i] || 0` — an index beyond the array reads as 0. -/
def entry (v : List ℚ) (i : Nat) : ℚ := v.getD i 0

/-- The loop accumulator `dotProduct` over `0 ≤ i < max(len1, len2)`. -/
def arrDot (v1 v2 : List ℚ) : ℚ :=
  ((List.range (max v1.length v2.length)).map (fun i => entry v1 i * entry v2 i)).sum

/-- The loop accumulator `norm1`/`norm2`: the padding entries beyond the
array's own length contribute 0, so each norm is the sum of squares of the
array's own entries. -/
def arrNormSq (v : List ℚ) : ℚ :=
  ((List.range v.length).map (fun i => entry v i * entry v i)).sum

/-- Cosine similarity of two parsed number arrays, floats idealised as reals;
as in `FP7.calculateSimilarity`, `magnitude === 0` holds exactly when one of
the nonnegative sums of squares vanishes. -/
noncomputable def arrSim (v1 v2 : List ℚ) : ℝ :=
  if arrNormSq v1 = 0 ∨ arrNormSq v2 = 0 then 0
  else (arrDot v1 v2 : ℝ) / (Real.sqrt (arrNormSq v1) * Real.sqrt (arrNormSq v2))

/-- `FileProcessor.calculateSimilarity` (server variant): `JSON.parse` both
arguments inside `try { … } catch { return 0 }`.  A string that fails to
parse (the empty string included) makes the function return 0; two parsed
arrays get their cosine similarity. -/
noncomputable def calculateSimilarity : EmbStr → EmbStr → ℝ
  | EmbStr.parsed v1, EmbStr.parsed v2 => arrSim v1 v2
  | _, _ => 0

/-- `FileProcessor.createEmbedding` (server variant): lowercase, split on
whitespace, strip non-word characters from each piece, keep pieces of length
> 2, count frequencies in first-occurrence order, sort the entries by
frequency descending (stable), keep the first 100, and serialise the list of
frequencies. -/
def createEmbedding (text : Str) : EmbStr :=
  let words := (splitWs (lowerStr text)).map (fun w => w.filter isWordChar)
  let kept := words.filter (fun w => decide (2 < w.length))
  let entries := kept.dedup.map (fun w => (w, (kept.count w : ℚ)))
  EmbStr.parsed (((sortDescBy Prod.snd entries).take 100).map Prod.snd)

end FPS

/- ===============================================================
   `GrokService` (grokService.ts) — the LLM collaborator.
   =============================================================== -/

/-- Outcome of the hosted chat-completion call: the request resolved with a
message content (possibly absent or empty), or it failed (network error,
rejected promise, thrown exception — anything the `catch` receives). -/
inductive LLMResult : Type where
  | ok : Option Str → LLMResult
  | error : LLMResult
deriving DecidableEq

namespace GrokService

/-- The fixed apology string substituted when the call fails.  (Character 39
is the apostrophe of the source text.) -/
def fallbackMsg : Str :=
  ("I".toList) ++ [Char.ofNat 39] ++
    ("m experiencing technical difficulties. Please try again later.".toList)

/-- The default answer when the call succeeds but carries no content
(`response.choices[0]?.message?.content || "…"`; the empty string is falsy). -/
def noContentMsg : Str :=
  ("I couldn".toList) ++ [Char.ofNat 39] ++ ("t generate a response. Please try again.".toList)

/-- `GrokService.generateAnswer`: returns the response content (or the
no-content default when it is missing or empty); every failure of the call is
absorbed by the `catch`, which returns the fixed apology string — the
function never throws. -/
def generateAnswer (outcome : LLMResult) (_query _context : Str) : Str :=
  match outcome with
  | LLMResult.ok (some c) => if c.isEmpty then noContentMsg else c
  | LLMResult.ok none => noContentMsg
  | LLMResult.error => fallbackMsg

end GrokService

/- ===============================================================
   Data model (shared/schema): only the fields the retrieval layer
   reads are modelled.
   =============================================================== -/

/-- A note: `title`, raw `content`, and the stored embedding column.  The code
reads the column as `note.embedding || ''`, so a `null` column is modelled by
`EmbStr.empty`. -/
structure Note where
  title : Str
  content : Str
  embedding : EmbStr
deriving DecidableEq

/-- A placement-interview question (fields read by the retrieval layer). -/
structure PlacementQuestion where
  company : Str
  question : Str
  topic : Str
  embedding : EmbStr
deriving DecidableEq

/-- A key file of a repository analysis (as built by `githubService`). -/
structure KeyFile where
  name : Str
  content : Str
  purpose : Str
deriving DecidableEq

/-- The analysis blob stored for a repository.  The retrieval code reads it
either through `JSON.stringify` or through the optional fields below. -/
structure RepoAnalysis where
  summary : Option Str
  technologies : Option (List Str)
  keyFiles : Option (List KeyFile)
  architecture : Option Str
deriving DecidableEq

/-- A GitHub repository.  `description` is read as `repo.description || ''`
(a null column is the empty string — the only reading the filters take; the
template-literal rendering of a null description inside the relevance text is
not distinguished, and no property proved here depends on that text);
`stars` is truthy iff nonzero. -/
structure GithubRepo where
  repoName : Str
  description : Str
  language : Option Str
  stars : Int
  analysis : Option RepoAnalysis
deriving DecidableEq

/-- The left brace character, written by code point. -/
def lbrace : Char := Char.ofNat 123

/-- The right brace character, written by code point. -/
def rbrace : Char := Char.ofNat 125

/-- A JSON string literal.  (Escaping of special characters inside the string
is elided; no property proved below depends on the serialised text.) -/
def jsonQuote (s : Str) : Str := '"' :: (s ++ ['"'])

/-- A JSON array from already-serialised elements. -/
def jsonArr (xs : List Str) : Str := '[' :: (List.intercalate (",".toList) xs ++ [']'])

/-- One `"key":value` member. -/
def jsonMember (key : Str) (val : Str) : Str := jsonQuote key ++ (':' :: val)

/-- A JSON object from already-serialised members. -/
def jsonObj (ms : List Str) : Str := lbrace :: (List.intercalate (",".toList) ms ++ [rbrace])

/-- `JSON.stringify` of a key-file record. -/
def stringifyKeyFile (f : KeyFile) : Str :=
  jsonObj [jsonMember ("name".toList) (jsonQuote f.name),
           jsonMember ("content".toList) (jsonQuote f.content),
           jsonMember ("purpose".toList) (jsonQuote f.purpose)]

/-- `JSON.stringify` of the analysis blob: present fields in the order the
analysis object is built (absent optional fields are skipped, as
`JSON.stringify` skips `undefined` members).  No property proved below
inspects this text — it only feeds substring tests and word counts on
arbitrary repositories. -/
def stringifyAnalysis (a : RepoAnalysis) : Str :=
  jsonObj
    (((a.summary.map (fun s => [jsonMember ("summary".toList) (jsonQuote s)])).getD []) ++
     ((a.technologies.map
        (fun ts => [jsonMember ("technologies".toList) (jsonArr (ts.map jsonQuote))])).getD []) ++
     ((a.keyFiles.map
        (fun fs => [jsonMember ("keyFiles".toList) (jsonArr (fs.map stringifyKeyFile))])).getD []) ++
     ((a.architecture.map (fun s => [jsonMember ("architecture".toList) (jsonQuote s)])).getD []))

/-- `JSON.stringify(repo.analysis)` with no null guard: a null blob serialises
to the four-character string `null`. -/
def stringifyAnalysisOpt : Option RepoAnalysis → Str
  | some a => stringifyAnalysis a
  | none => "null".toList

/- ===============================================================
   `RAGService` (ragService.ts, part_008 lines 1–214).
   =============================================================== -/

/-- The source tag of a retrieved item. -/
inductive SType : Type where
  | note : SType
  | question : SType
  | github : SType
deriving DecidableEq

/-- One entry of the `sources` array of a `RAGResponse`. -/
structure Source where
  type : SType
  title : Str
  content : Str
  relevance : ℚ
deriving DecidableEq

/-- The value of `RAGService.searchAndAnswer`. -/
structure RAGResponse where
  answer : Str
  sources : List Source
deriving DecidableEq

/-- The per-user content read from the persistence collaborator
(`getNotesByUser`, `getPlacementQuestionsByUser`, `getGithubReposByUser`). -/
structure StorageView where
  notes : List Note
  questions : List PlacementQuestion
  repos : List GithubRepo
deriving DecidableEq

namespace RAGService

/-- `RAGService.calculateTextSimilarity`: the guard
`if (!embedding1 || !embedding2) return 0` rejects empty strings, then the
server `FileProcessor.calculateSimilarity` handles the rest (returning 0 on
any parse failure).  Floats idealised as reals. -/
noncomputable def calculateTextSimilarity (e1 e2 : EmbStr) : ℝ :=
  if e1 = EmbStr.empty ∨ e2 = EmbStr.empty then 0 else FPS.calculateSimilarity e1 e2

/-- Decidable form of the comparison
`this.calculateTextSimilarity(…) > 0.3` used by the filters: theorem
`simGT03_iff` below proves `simGT03 e1 e2 = true ↔ 3/10 < calculateTextSimilarity e1 e2`.
Using the rational-arithmetic form keeps the filters executable. -/
def simGT03 (e1 e2 : EmbStr) : Bool :=
  match e1, e2 with
  | EmbStr.parsed v1, EmbStr.parsed v2 =>
    decide (FPS.arrNormSq v1 ≠ 0) && decide (FPS.arrNormSq v2 ≠ 0) &&
      decide (0 < FPS.arrDot v1 v2) &&
      decide ((9 / 100 : ℚ) * (FPS.arrNormSq v1 * FPS.arrNormSq v2) <
        FPS.arrDot v1 v2 * FPS.arrDot v1 v2)
  | _, _ => false

/-- The filter body of `findRelevantNotes`: substring match of the lowercased
query against content or title, or embedding similarity above 0.3. -/
def noteMatches (queryEmbedding : EmbStr) (query : Str) (note : Note) : Bool :=
  let queryLower := lowerStr query
  containsL (lowerStr note.content) queryLower ||
    containsL (lowerStr note.title) queryLower ||
    simGT03 note.embedding queryEmbedding

/-- `RAGService.findRelevantNotes`: the matching notes, capped at 3. -/
def findRelevantNotes (notes : List Note) (queryEmbedding : EmbStr) (query : Str) :
    List Note :=
  (notes.filter (noteMatches queryEmbedding query)).take 3

/-- The filter body of `findRelevantQuestions`: substring match against
question text or topic, or embedding similarity above 0.3. -/
def questionMatches (queryEmbedding : EmbStr) (query : Str)
    (question : PlacementQuestion) : Bool :=
  let queryLower := lowerStr query
  containsL (lowerStr question.question) queryLower ||
    containsL (lowerStr question.topic) queryLower ||
    simGT03 question.embedding queryEmbedding

/-- `RAGService.findRelevantQuestions`: the matching questions, capped at 2. -/
def findRelevantQuestions (questions : List PlacementQuestion) (queryEmbedding : EmbStr)
    (query : Str) : List PlacementQuestion :=
  (questions.filter (questionMatches queryEmbedding query)).take 2

/-- `RAGService.calculateRelevance`: the fraction of the lowercased
whitespace-split query words occurring as substrings of the lowercased
content (the loop `queryWords.forEach(… matches++)` is the fold). -/
def calculateRelevance (content query : Str) : ℚ :=
  let queryWords := splitWs (lowerStr query)
  let contentLower := lowerStr content
  let matchCount :=
    queryWords.foldl (fun acc word => if containsL contentLower word then acc + 1 else acc)
      (0 : Nat)
  (matchCount : ℚ) / (queryWords.length : ℚ)

/-- The fixed project-related keywords of `findRelevantRepos` (the source
spells the check as a chain of eleven `queryLower.includes(…)`). -/
def projectKeywords : List Str :=
  [("file".toList), ("structure".toList), ("project".toList), ("repo".toList),
   ("code".toList), ("folder".toList), ("directory".toList), ("architecture".toList),
   ("technology".toList), ("stack".toList), ("github".toList)]

/-- `isProjectQuery`: the lowercased query contains one of the keywords. -/
def isProjectQuery (queryLower : Str) : Bool :=
  projectKeywords.any (fun kw => containsL queryLower kw)

/-- `repo.analysis ? JSON.stringify(repo.analysis).toLowerCase() : ''`. -/
def analysisTextOf (repo : GithubRepo) : Str :=
  match repo.analysis with
  | some a => lowerStr (stringifyAnalysis a)
  | none => []

/-- The `exactMatch` test of `findRelevantRepos`: lowercased query occurs in
the repository name, the description, or the serialised analysis. -/
def repoExactMatch (queryLower : Str) (repo : GithubRepo) : Bool :=
  containsL (lowerStr repo.repoName) queryLower ||
    containsL (lowerStr repo.description) queryLower ||
    containsL (analysisTextOf repo) queryLower

/-- The filter body of `findRelevantRepos`
(`shouldInclude = exactMatch || (isProjectQuery && repo.analysis)`). -/
def repoMatches (queryLower : Str) (repo : GithubRepo) : Bool :=
  repoExactMatch queryLower repo || (isProjectQuery queryLower && repo.analysis.isSome)

/-- `RAGService.findRelevantRepos`: text matches plus the project-query
broadening (any analysed repository when the query is project-related), with
the fallback branch returning up to 3 analysed repositories when nothing
matched, a project-related query, and a non-empty collection. -/
def findRelevantRepos (repos : List GithubRepo) (_queryEmbedding : EmbStr) (query : Str) :
    List GithubRepo :=
  let queryLower := lowerStr query
  let relevantRepos := repos.filter (repoMatches queryLower)
  if relevantRepos.isEmpty && isProjectQuery queryLower && !repos.isEmpty then
    (repos.filter (fun repo => repo.analysis.isSome)).take 3
  else
    relevantRepos.take 3

/-- `RAGService.formatRepoContent`: the formatted block shown for a
repository source. -/
def formatRepoContent (repo : GithubRepo) : Str :=
  ("Repository: ".toList) ++ repo.repoName ++ ("\n".toList) ++
  (if repo.description.isEmpty then [] else
    ("Description: ".toList) ++ repo.description ++ ("\n".toList)) ++
  (match repo.language with
   | some l => if l.isEmpty then [] else ("Primary Language: ".toList) ++ l ++ ("\n".toList)
   | none => []) ++
  (if repo.stars = 0 then [] else
    ("Stars: ".toList) ++ (toString repo.stars).toList ++ ("\n".toList)) ++
  (match repo.analysis with
   | none => []
   | some a =>
     ((a.summary.map (fun s =>
        if s.isEmpty then [] else ("\nSummary: ".toList) ++ s ++ ("\n".toList))).getD []) ++
     ((a.technologies.map (fun ts =>
        ("Technologies: ".toList) ++ List.intercalate (", ".toList) ts ++ ("\n".toList))).getD
       []) ++
     ((a.architecture.map (fun s =>
        if s.isEmpty then [] else ("Architecture: ".toList) ++ s ++ ("\n".toList))).getD []) ++
     ((a.keyFiles.map (fun fs =>
        ("\nKey Files:\n".toList) ++
          (fs.take 3).foldr (fun f acc =>
            ("- ".toList) ++ f.name ++ (": ".toList) ++
              (if f.purpose.isEmpty then ("No description".toList) else f.purpose) ++
              ("\n".toList) ++ acc) [])).getD []))

/-- The note entry of the `sources` array: content truncated to 500
characters with an ellipsis marker when longer. -/
def noteSource (query : Str) (note : Note) : Source :=
  { type := SType.note
    title := note.title
    content := note.content.take 500 ++
      (if 500 < note.content.length then ("...".toList) else [])
    relevance := calculateRelevance note.content query }

/-- The question entry of the `sources` array. -/
def questionSource (query : Str) (question : PlacementQuestion) : Source :=
  { type := SType.question
    title := question.company ++ (" - ".toList) ++ question.topic
    content := question.question
    relevance := calculateRelevance question.question query }

/-- The repository entry of the `sources` array; its relevance is computed on
`` `${repo.repoName} ${repo.description} ${JSON.stringify(repo.analysis)}` ``. -/
def repoSource (query : Str) (repo : GithubRepo) : Source :=
  { type := SType.github
    title := repo.repoName
    content := formatRepoContent repo
    relevance := calculateRelevance
      (repo.repoName ++ (" ".toList) ++ repo.description ++ (" ".toList) ++
        stringifyAnalysisOpt repo.analysis) query }

/-- The merged candidate array, in source order: notes, then questions, then
repositories, each preserving its filtered order. -/
def mergedSources (relevantNotes : List Note) (relevantQuestions : List PlacementQuestion)
    (relevantRepos : List GithubRepo) (query : Str) : List Source :=
  relevantNotes.map (noteSource query) ++ relevantQuestions.map (questionSource query) ++
    relevantRepos.map (repoSource query)

/-- `sort((a, b) => b.relevance - a.relevance).slice(0, 5)`. -/
def rankSources (sources : List Source) : List Source :=
  (sortDescBy Source.relevance sources).take 5

/-- `source.type.toUpperCase()`. -/
def typeTag : SType → Str
  | SType.note => "NOTE".toList
  | SType.question => "QUESTION".toList
  | SType.github => "GITHUB".toList

/-- The context string handed to the LLM: each source rendered as
`[TYPE] Title:\ncontent`, blocks joined by blank lines. -/
def contextOf (sources : List Source) : Str :=
  List.intercalate ("\n\n".toList)
    (sources.map (fun s =>
      ("[".toList) ++ typeTag s.type ++ ("] ".toList) ++ s.title ++ (":\n".toList) ++
        s.content))

/-- The single generic error of the pipeline
(`throw new Error('Failed to generate answer')`). -/
def failMsg : Str := "Failed to generate answer".toList

/-- `RAGService.searchAndAnswer`.  The collaborator outcomes are explicit
arguments: `store` is the combined outcome of the three per-user storage
reads (any rejection makes the whole `try` block throw), `llm` the outcome of
the hosted LLM call (absorbed inside `GrokService.generateAnswer`, which
never throws).  Every other step is a pure computation and cannot throw, so
the `catch` + rethrow of the source is exactly the storage-error branch. -/
def searchAndAnswer (store : Except Unit StorageView) (llm : LLMResult) (query : Str) :
    Except Str RAGResponse :=
  match store with
  | Except.error _ => Except.error failMsg
  | Except.ok sv =>
    let queryEmbedding := FPS.createEmbedding query
    let relevantNotes := findRelevantNotes sv.notes queryEmbedding query
    let relevantQuestions := findRelevantQuestions sv.questions queryEmbedding query
    let relevantRepos := findRelevantRepos sv.repos queryEmbedding query
    let sources := rankSources (mergedSources relevantNotes relevantQuestions relevantRepos query)
    let context := contextOf sources
    Except.ok { answer := GrokService.generateAnswer llm query context, sources := sources }

end RAGService

/- ===============================================================
   Spec-side predicates (written from the specification's wording,
   §4.3), compared below with the code's filter bodies.
   =============================================================== -/

/-- Spec §4.3 inclusion rule for a note: substring match of the lowercased
query against content/title, or cosine similarity of the stored and the
query embedding exceeding 0.3 (stated with the real-valued similarity). -/
def NoteRelevantSpec (queryEmbedding : EmbStr) (query : Str) (note : Note) : Prop :=
  containsL (lowerStr note.content) (lowerStr query) = true ∨
    containsL (lowerStr note.title) (lowerStr query) = true ∨
    (3 / 10 : ℝ) < RAGService.calculateTextSimilarity note.embedding queryEmbedding

/-- Spec §4.3 inclusion rule for a placement question: substring match
against question text/topic, or similarity exceeding 0.3. -/
def QuestionRelevantSpec (queryEmbedding : EmbStr) (query : Str)
    (question : PlacementQuestion) : Prop :=
  containsL (lowerStr question.question) (lowerStr query) = true ∨
    containsL (lowerStr question.topic) (lowerStr query) = true ∨
    (3 / 10 : ℝ) < RAGService.calculateTextSimilarity question.embedding queryEmbedding

/-- Spec §4.3 inclusion rule for a repository: substring match against its
text fields (name / description / serialised analysis), or the project-query
heuristic (project-related query and a stored analysis).  A repository
carries no stored embedding, so it has no similarity branch. -/
def RepoRelevantSpec (query : Str) (repo : GithubRepo) : Prop :=
  RAGService.repoExactMatch (lowerStr query) repo = true ∨
    (RAGService.isProjectQuery (lowerStr query) = true ∧ repo.analysis.isSome = true)

/-- All values of a term-frequency map are nonnegative. -/
def FP7.NonnegVals (m : List (Str × ℚ)) : Prop := ∀ p ∈ m, 0 ≤ p.2

/- ===============================================================
   Lemmas about the part_007 Similarity Scorer.
   =============================================================== -/

namespace FP7

theorem lookup0_nonneg (m : List (Str × ℚ)) (h : NonnegVals m) (w : Str) :
    0 ≤ lookup0 m w := by
  induction m with
  | nil => simp [lookup0]
  | cons p t ih =>
    obtain ⟨k, v⟩ := p
    by_cases hk : k = w
    · simpa [lookup0, hk] using h (k, v) (List.mem_cons_self _ _)
    · simp only [lookup0, hk, if_false]
      exact ih fun q hq => h q (List.mem_cons_of_mem _ hq)

theorem lookup0_eq_zero_of_not_mem (m : List (Str × ℚ)) (w : Str)
    (h : w ∉ m.map Prod.fst) : lookup0 m w = 0 := by
  induction m with
  | nil => rfl
  | cons p t ih =>
    obtain ⟨k, v⟩ := p
    simp only [List.map_cons, List.mem_cons, not_or] at h
    have hk : ¬k = w := fun hkw => h.1 hkw.symm
    simp only [lookup0, hk, if_false]
    exact ih h.2

theorem normSq_nonneg (m : List (Str × ℚ)) : 0 ≤ normSq m := by
  apply List.sum_nonneg
  intro x hx
  obtain ⟨w, _, rfl⟩ := List.mem_map.1 hx
  exact mul_self_nonneg _

theorem keysOf_nodup (m : List (Str × ℚ)) : (keysOf m).Nodup := List.nodup_dedup _

theorem normSq_eq_finset (m : List (Str × ℚ)) :
    normSq m = Finset.sum (keysOf m).toFinset (fun w => lookup0 m w * lookup0 m w) :=
  (List.sum_toFinset _ (keysOf_nodup m)).symm

theorem dotP_eq_inter (m1 m2 : List (Str × ℚ)) :
    dotP m1 m2 = Finset.sum ((keysOf m1).toFinset ∩ (keysOf m2).toFinset)
      (fun w => lookup0 m1 w * lookup0 m2 w) := by
  rw [dotP, ← List.sum_toFinset _ (keysOf_nodup m1)]
  apply (Finset.sum_subset Finset.inter_subset_left _).symm
  intro w _ hw2
  have : w ∉ (keysOf m2).toFinset := fun hmem => hw2 (Finset.mem_inter.2 ⟨‹_›, hmem⟩)
  have hnot : w ∉ m2.map Prod.fst := by
    intro hmem
    exact this (List.mem_toFinset.2 (List.mem_dedup.2 hmem))
  rw [lookup0_eq_zero_of_not_mem m2 w hnot, mul_zero]

theorem dotP_comm (m1 m2 : List (Str × ℚ)) : dotP m1 m2 = dotP m2 m1 := by
  rw [dotP_eq_inter, dotP_eq_inter, Finset.inter_comm]
  exact Finset.sum_congr rfl fun w _ => mul_comm _ _

theorem dotP_self (m : List (Str × ℚ)) : dotP m m = normSq m := rfl

theorem dotP_nonneg (m1 m2 : List (Str × ℚ)) (h1 : NonnegVals m1) (h2 : NonnegVals m2) :
    0 ≤ dotP m1 m2 := by
  apply List.sum_nonneg
  intro x hx
  obtain ⟨w, _, rfl⟩ := List.mem_map.1 hx
  exact mul_nonneg (lookup0_nonneg m1 h1 w) (lookup0_nonneg m2 h2 w)

theorem dotP_sq_le (m1 m2 : List (Str × ℚ)) :
    dotP m1 m2 * dotP m1 m2 ≤ normSq m1 * normSq m2 := by
  set s := (keysOf m1).toFinset ∩ (keysOf m2).toFinset with hs
  have hcs := Finset.sum_mul_sq_le_sq_mul_sq s (fun w => lookup0 m1 w) (fun w => lookup0 m2 w)
  have h1 : Finset.sum s (fun w => lookup0 m1 w ^ 2) ≤ normSq m1 := by
    rw [normSq_eq_finset]
    refine le_trans (le_of_eq (Finset.sum_congr rfl fun w _ => pow_two _))
      (Finset.sum_le_sum_of_subset_of_nonneg Finset.inter_subset_left ?_)
    intro w _ _
    exact mul_self_nonneg _
  have h2 : Finset.sum s (fun w => lookup0 m2 w ^ 2) ≤ normSq m2 := by
    rw [normSq_eq_finset]
    refine le_trans (le_of_eq (Finset.sum_congr rfl fun w _ => pow_two _))
      (Finset.sum_le_sum_of_subset_of_nonneg Finset.inter_subset_right ?_)
    intro w _ _
    exact mul_self_nonneg _
  calc dotP m1 m2 * dotP m1 m2
      = (Finset.sum s fun w => lookup0 m1 w * lookup0 m2 w) ^ 2 := by
        rw [dotP_eq_inter, pow_two]
    _ ≤ (Finset.sum s fun w => lookup0 m1 w ^ 2) * Finset.sum s (fun w => lookup0 m2 w ^ 2) :=
        hcs
    _ ≤ normSq m1 * normSq m2 := by
        apply mul_le_mul h1 h2 (Finset.sum_nonneg fun w _ => sq_nonneg _)
          (le_trans (Finset.sum_nonneg fun w _ => sq_nonneg _) h1)

theorem calcSim_comm (m1 m2 : List (Str × ℚ)) :
    calculateSimilarity m1 m2 = calculateSimilarity m2 m1 := by
  rw [calculateSimilarity, calculateSimilarity, dotP_comm]
  by_cases h : normSq m1 = 0 ∨ normSq m2 = 0
  · rw [if_pos h, if_pos h.symm]
  · rw [if_neg h, if_neg fun hc => h hc.symm, mul_comm]

theorem calcSim_self (m : List (Str × ℚ)) (h : normSq m ≠ 0) :
    calculateSimilarity m m = 1 := by
  have hnn : (0 : ℝ) ≤ (normSq m : ℝ) := by exact_mod_cast normSq_nonneg m
  rw [calculateSimilarity, if_neg (by tauto), dotP_self,
    Real.mul_self_sqrt hnn]
  exact div_self (by exact_mod_cast h)

theorem normSq_nil : normSq ([] : List (Str × ℚ)) = 0 := rfl

theorem calcSim_empty_right (m : List (Str × ℚ)) : calculateSimilarity m [] = 0 := by
  rw [calculateSimilarity, if_pos (Or.inr normSq_nil)]

theorem calcSim_empty_left (m : List (Str × ℚ)) : calculateSimilarity [] m = 0 := by
  rw [calculateSimilarity, if_pos (Or.inl normSq_nil)]

theorem calcSim_bounds (m1 m2 : List (Str × ℚ)) (h1 : NonnegVals m1) (h2 : NonnegVals m2) :
    0 ≤ calculateSimilarity m1 m2 ∧ calculateSimilarity m1 m2 ≤ 1 := by
  rw [calculateSimilarity]
  by_cases hz : normSq m1 = 0 ∨ normSq m2 = 0
  · rw [if_pos hz]
    exact ⟨le_refl 0, by norm_num⟩
  · push_neg at hz
    rw [if_neg (by tauto)]
    have hp1 : (0 : ℝ) < (normSq m1 : ℝ) := by
      exact_mod_cast lt_of_le_of_ne (normSq_nonneg m1) (Ne.symm hz.1)
    have hp2 : (0 : ℝ) < (normSq m2 : ℝ) := by
      exact_mod_cast lt_of_le_of_ne (normSq_nonneg m2) (Ne.symm hz.2)
    have hd : (0 : ℝ) ≤ (dotP m1 m2 : ℝ) := by exact_mod_cast dotP_nonneg m1 m2 h1 h2
    have hden : (0 : ℝ) < Real.sqrt (normSq m1) * Real.sqrt (normSq m2) :=
      mul_pos (Real.sqrt_pos.2 hp1) (Real.sqrt_pos.2 hp2)
    constructor
    · exact div_nonneg hd (le_of_lt hden)
    · rw [div_le_one hden, ← Real.sqrt_mul (le_of_lt hp1)]
      apply Real.le_sqrt_of_sq_le
      have := dotP_sq_le m1 m2
      rw [pow_two]
      exact_mod_cast this

end FP7

/- ===============================================================
   Lemmas about the server Similarity Scorer and the 0.3 threshold.
   =============================================================== -/

namespace FPS

theorem arrNormSq_nonneg (v : List ℚ) : 0 ≤ arrNormSq v := by
  apply List.sum_nonneg
  intro x hx
  obtain ⟨i, _, rfl⟩ := List.mem_map.1 hx
  exact mul_self_nonneg _

end FPS

namespace RAGService

theorem calcTextSim_empty_left (e : EmbStr) :
    calculateTextSimilarity EmbStr.empty e = 0 := if_pos (Or.inl rfl)

theorem calcTextSim_empty_right (e : EmbStr) :
    calculateTextSimilarity e EmbStr.empty = 0 := if_pos (Or.inr rfl)

theorem calcTextSim_malformed_left (e : EmbStr) :
    calculateTextSimilarity EmbStr.malformed e = 0 := by
  by_cases he : e = EmbStr.empty
  · exact if_pos (Or.inr he)
  · rw [calculateTextSimilarity, if_neg (by simp [he])]
    cases e <;> rfl

theorem calcTextSim_malformed_right (e : EmbStr) :
    calculateTextSimilarity e EmbStr.malformed = 0 := by
  by_cases he : e = EmbStr.empty
  · exact if_pos (Or.inl he)
  · rw [calculateTextSimilarity, if_neg (by simp [he])]
    cases e <;> rfl

theorem calcTextSim_parsed (v1 v2 : List ℚ) :
    calculateTextSimilarity (EmbStr.parsed v1) (EmbStr.parsed v2) = FPS.arrSim v1 v2 := by
  rw [calculateTextSimilarity, if_neg (by simp)]
  rfl

/-- The 0.3 threshold on the real-valued cosine similarity of two parsed
arrays, reduced to rational arithmetic. -/
theorem arrSim_gt_thresh (v1 v2 : List ℚ) :
    ((3 / 10 : ℝ) < FPS.arrSim v1 v2) ↔
      (FPS.arrNormSq v1 ≠ 0 ∧ FPS.arrNormSq v2 ≠ 0 ∧ 0 < FPS.arrDot v1 v2 ∧
        (9 / 100 : ℚ) * (FPS.arrNormSq v1 * FPS.arrNormSq v2) <
          FPS.arrDot v1 v2 * FPS.arrDot v1 v2) := by
  rw [FPS.arrSim]
  by_cases hz : FPS.arrNormSq v1 = 0 ∨ FPS.arrNormSq v2 = 0
  · rw [if_pos hz]
    constructor
    · intro h
      norm_num at h
    · rintro ⟨h1, h2, -, -⟩
      exact absurd hz (by tauto)
  · push_neg at hz
    rw [if_neg (by tauto)]
    have hp1 : (0 : ℝ) < (FPS.arrNormSq v1 : ℝ) := by
      exact_mod_cast lt_of_le_of_ne (FPS.arrNormSq_nonneg v1) (Ne.symm hz.1)
    have hp2 : (0 : ℝ) < (FPS.arrNormSq v2 : ℝ) := by
      exact_mod_cast lt_of_le_of_ne (FPS.arrNormSq_nonneg v2) (Ne.symm hz.2)
    have hm : (0 : ℝ) < Real.sqrt (FPS.arrNormSq v1) * Real.sqrt (FPS.arrNormSq v2) :=
      mul_pos (Real.sqrt_pos.2 hp1) (Real.sqrt_pos.2 hp2)
    have hmm : (Real.sqrt (FPS.arrNormSq v1) * Real.sqrt (FPS.arrNormSq v2)) *
        (Real.sqrt (FPS.arrNormSq v1) * Real.sqrt (FPS.arrNormSq v2)) =
        (FPS.arrNormSq v1 : ℝ) * (FPS.arrNormSq v2 : ℝ) := by
      rw [mul_mul_mul_comm, Real.mul_self_sqrt (le_of_lt hp1),
        Real.mul_self_sqrt (le_of_lt hp2)]
    rw [lt_div_iff₀ hm]
    constructor
    · intro h
      have hd0 : (0 : ℝ) < (FPS.arrDot v1 v2 : ℝ) := lt_trans (by positivity) h
      have hsq := mul_self_lt_mul_self (by positivity) h
      rw [mul_mul_mul_comm, hmm] at hsq
      refine ⟨hz.1, hz.2, by exact_mod_cast hd0, ?_⟩
      have h9 : ((9 / 100 : ℚ) : ℝ) * ((FPS.arrNormSq v1 : ℝ) * (FPS.arrNormSq v2 : ℝ)) <
          (FPS.arrDot v1 v2 : ℝ) * (FPS.arrDot v1 v2 : ℝ) := by
        rw [show ((9 / 100 : ℚ) : ℝ) = (3 / 10 : ℝ) * (3 / 10 : ℝ) by norm_num]
        exact hsq
      exact_mod_cast h9
    · rintro ⟨-, -, hd, hsq⟩
      have hd' : (0 : ℝ) < (FPS.arrDot v1 v2 : ℝ) := by exact_mod_cast hd
      have hsq' : ((9 / 100 : ℚ) : ℝ) * ((FPS.arrNormSq v1 : ℝ) * (FPS.arrNormSq v2 : ℝ)) <
          (FPS.arrDot v1 v2 : ℝ) * (FPS.arrDot v1 v2 : ℝ) := by exact_mod_cast hsq
      apply lt_of_pow_lt_pow_left₀ 2 (le_of_lt hd')
      calc ((3 / 10 : ℝ) * (Real.sqrt (FPS.arrNormSq v1) * Real.sqrt (FPS.arrNormSq v2))) ^ 2
          = (3 / 10 : ℝ) * (3 / 10 : ℝ) *
              ((Real.sqrt (FPS.arrNormSq v1) * Real.sqrt (FPS.arrNormSq v2)) *
                (Real.sqrt (FPS.arrNormSq v1) * Real.sqrt (FPS.arrNormSq v2))) := by ring
        _ = ((9 / 100 : ℚ) : ℝ) * ((FPS.arrNormSq v1 : ℝ) * (FPS.arrNormSq v2 : ℝ)) := by
            rw [hmm]; norm_num
        _ < (FPS.arrDot v1 v2 : ℝ) * (FPS.arrDot v1 v2 : ℝ) := hsq'
        _ = (FPS.arrDot v1 v2 : ℝ) ^ 2 := by ring

/-- The decidable comparison `simGT03` used by the filters agrees with the
source's real-valued comparison `calculateTextSimilarity(…) > 0.3`. -/
theorem simGT03_iff (e1 e2 : EmbStr) :
    simGT03 e1 e2 = true ↔ (3 / 10 : ℝ) < calculateTextSimilarity e1 e2 := by
  cases e1 with
  | empty => norm_num [simGT03, calcTextSim_empty_left]
  | malformed => norm_num [simGT03, calcTextSim_malformed_left]
  | parsed v1 =>
    cases e2 with
    | empty => norm_num [simGT03, calcTextSim_empty_right]
    | malformed => norm_num [simGT03, calcTextSim_malformed_right]
    | parsed v2 =>
      rw [calcTextSim_parsed, arrSim_gt_thresh]
      simp [simGT03, and_assoc]

end RAGService

/- ===============================================================
   Lemmas about the part_007 Embedder.
   =============================================================== -/

namespace FP7

theorem lookup0_map_self (l : List Str) (f : Str → ℚ) (w : Str) (hw : w ∈ l) :
    lookup0 (l.map fun x => (x, f x)) w = f w := by
  induction l with
  | nil => cases hw
  | cons x t ih =>
    by_cases hx : x = w
    · subst hx
      simp [lookup0]
    · rcases List.mem_cons.1 hw with h | h
      · exact absurd h.symm hx
      · simp only [List.map_cons, lookup0, hx, if_false]
        exact ih h

theorem keys_createEmbedding (text : Str) :
    (createEmbedding text).map Prod.fst = (tokensOf text).dedup := by
  simp only [createEmbedding, List.map_map]
  have h : (Prod.fst ∘ fun w : Str =>
      (w, ((tokensOf text).count w : ℚ) / ((tokensOf text).length : ℚ))) = id := rfl
  rw [h, List.map_id]

theorem sum_dedup_count (l : List Str) :
    (l.dedup.map fun w => l.count w).sum = l.length := by
  have h2 := List.sum_map_count_dedup_eq_length l
  rw [← h2]
  apply congrArg
  apply List.map_congr_left
  intro w _
  show l.countP (fun x => x == w) = l.countP (fun x => decide (x = w))
  apply List.countP_congr
  intro x _
  by_cases h : x = w <;> simp [h]

theorem list_sum_map_div {α : Type} (l : List α) (f : α → ℚ) (c : ℚ) :
    (l.map fun x => f x / c).sum = (l.map f).sum / c := by
  induction l with
  | nil => simp
  | cons x t ih => simp [ih, add_div]

theorem createEmbedding_value (text : Str) (w : Str) (hw : w ∈ tokensOf text) :
    lookup0 (createEmbedding text) w =
      ((tokensOf text).count w : ℚ) / ((tokensOf text).length : ℚ) :=
  lookup0_map_self _ _ _ (List.mem_dedup.2 hw)

theorem createEmbedding_values_sum (text : Str) (h : tokensOf text ≠ []) :
    ((createEmbedding text).map Prod.snd).sum = 1 := by
  have hL : ((tokensOf text).length : ℚ) ≠ 0 := by
    simpa using fun hlen => h (List.length_eq_zero.1 hlen)
  rw [createEmbedding]
  simp only [List.map_map]
  have : ((tokensOf text).dedup.map
      (Prod.snd ∘ fun w => (w, ((tokensOf text).count w : ℚ) / ((tokensOf text).length : ℚ)))) =
      ((tokensOf text).dedup.map
        (fun w => ((tokensOf text).count w : ℚ) / ((tokensOf text).length : ℚ))) := by
    simp [Function.comp]
  rw [this, list_sum_map_div]
  have hcast : ((tokensOf text).dedup.map fun w => ((tokensOf text).count w : ℚ)).sum =
      (((tokensOf text).dedup.map fun w => (tokensOf text).count w).sum : ℚ) := by
    rw [Nat.cast_list_sum, List.map_map]
    rfl
  rw [hcast, sum_dedup_count]
  exact div_self hL

theorem tokensOf_shape (text : Str) (w : Str) (hw : w ∈ tokensOf text) :
    3 ≤ w.length ∧ w.all isLowerAlpha = true := by
  have := (List.mem_filter.1 hw).2
  simp only [Bool.and_eq_true, decide_eq_true_eq] at this
  exact this

end FP7

/- ===============================================================
   Lemmas about `calculateRelevance` (the word-count fold).
   =============================================================== -/

theorem foldl_if_count {α : Type} (p : α → Bool) (l : List α) (n : Nat) :
    l.foldl (fun acc w => if p w then acc + 1 else acc) n = n + l.countP p := by
  induction l generalizing n with
  | nil => simp
  | cons x t ih =>
    simp only [List.foldl_cons, List.countP_cons]
    by_cases h : p x
    · rw [if_pos h, ih, if_pos h]
      omega
    · rw [if_neg h, ih, if_neg h]
      omega

/- ===============================================================
   Lemmas about the stable descending sort.
   =============================================================== -/

theorem mem_insertDescBy {α : Type} (key : α → ℚ) (x z : α) (l : List α) :
    z ∈ insertDescBy key x l ↔ z = x ∨ z ∈ l := by
  induction l with
  | nil => simp [insertDescBy]
  | cons y t ih =>
    rw [insertDescBy]
    by_cases h : key y ≤ key x
    · simp [h]
    · simp only [h, if_false, List.mem_cons, ih]
      tauto

theorem pairwise_insertDescBy {α : Type} (key : α → ℚ) (x : α) (l : List α)
    (h : l.Pairwise (fun a b => key b ≤ key a)) :
    (insertDescBy key x l).Pairwise (fun a b => key b ≤ key a) := by
  induction l with
  | nil => simp [insertDescBy]
  | cons y t ih =>
    rw [List.pairwise_cons] at h
    rw [insertDescBy]
    by_cases hle : key y ≤ key x
    · rw [if_pos hle]
      refine List.Pairwise.cons ?_ (List.Pairwise.cons h.1 h.2)
      intro z hz
      rcases List.mem_cons.1 hz with rfl | hz
      · exact hle
      · exact le_trans (h.1 z hz) hle
    · rw [if_neg hle]
      refine List.Pairwise.cons ?_ (ih h.2)
      intro z hz
      rcases (mem_insertDescBy key x z t).1 hz with rfl | hz
      · exact le_of_lt (not_le.1 hle)
      · exact h.1 z hz

theorem sortDescBy_pairwise {α : Type} (key : α → ℚ) (l : List α) :
    (sortDescBy key l).Pairwise (fun a b => key b ≤ key a) := by
  induction l with
  | nil => simp [sortDescBy]
  | cons x t ih => exact pairwise_insertDescBy key x _ ih

theorem filter_insertDescBy {α : Type} (key : α → ℚ) (v : ℚ) (x : α) (l : List α) :
    (insertDescBy key x l).filter (fun a => decide (key a = v)) =
      if key x = v then x :: l.filter (fun a => decide (key a = v))
      else l.filter (fun a => decide (key a = v)) := by
  induction l with
  | nil =>
    by_cases h : key x = v <;> simp [insertDescBy, h]
  | cons y t ih =>
    rw [insertDescBy]
    by_cases hle : key y ≤ key x
    · rw [if_pos hle]
      by_cases hx : key x = v <;> simp [List.filter_cons, hx]
    · rw [if_neg hle]
      by_cases hx : key x = v
      · have hy : ¬key y = v := fun h => hle (le_of_eq (h.trans hx.symm))
        rw [if_pos hx]
        simp [List.filter_cons, hy, ih, hx]
      · rw [if_neg hx]
        by_cases hy : key y = v <;> simp [List.filter_cons, hy, ih, hx]

theorem sortDescBy_filter {α : Type} (key : α → ℚ) (v : ℚ) (l : List α) :
    (sortDescBy key l).filter (fun a => decide (key a = v)) =
      l.filter (fun a => decide (key a = v)) := by
  induction l with
  | nil => rfl
  | cons x t ih =>
    rw [sortDescBy, filter_insertDescBy]
    by_cases hx : key x = v <;> simp [List.filter_cons, hx, ih]

/- ===============================================================
   Bridges between the filter bodies and the spec-side predicates.
   =============================================================== -/

namespace RAGService

theorem noteMatches_iff (qe : EmbStr) (q : Str) (n : Note) :
    noteMatches qe q n = true ↔ NoteRelevantSpec qe q n := by
  simp only [noteMatches, NoteRelevantSpec, Bool.or_eq_true, simGT03_iff, or_assoc]

theorem questionMatches_iff (qe : EmbStr) (q : Str) (m : PlacementQuestion) :
    questionMatches qe q m = true ↔ QuestionRelevantSpec qe q m := by
  simp only [questionMatches, QuestionRelevantSpec, Bool.or_eq_true, simGT03_iff, or_assoc]

theorem repoMatches_iff (q : Str) (r : GithubRepo) :
    repoMatches (lowerStr q) r = true ↔ RepoRelevantSpec q r := by
  simp only [repoMatches, RepoRelevantSpec, Bool.or_eq_true, Bool.and_eq_true]

theorem simGT03_empty_left (e : EmbStr) : simGT03 EmbStr.empty e = false := by
  cases e <;> rfl

theorem simGT03_malformed_left (e : EmbStr) : simGT03 EmbStr.malformed e = false := by
  cases e <;> rfl

end RAGService

/- ===============================================================
   Claim theorems.
   =============================================================== -/

/-- C1: for every input text, the part_007 Embedder produces a mapping whose
keys are exactly the qualifying tokens of the text — each token being
lowercase alphabetic of length at least 3 — with each key mapped to its
frequency divided by the total qualifying-token count; the values sum to 1
whenever at least one qualifying token exists, and the mapping is empty
otherwise (in particular for empty text). -/
theorem c1_embedder_tf_map (text : Str) :
    (∀ w, w ∈ (FP7.createEmbedding text).map Prod.fst ↔ w ∈ FP7.tokensOf text) ∧
    (∀ w, w ∈ FP7.tokensOf text → 3 ≤ w.length ∧ w.all isLowerAlpha = true) ∧
    (∀ w, w ∈ FP7.tokensOf text →
      FP7.lookup0 (FP7.createEmbedding text) w =
        ((FP7.tokensOf text).count w : ℚ) / ((FP7.tokensOf text).length : ℚ)) ∧
    (FP7.tokensOf text ≠ [] → ((FP7.createEmbedding text).map Prod.snd).sum = 1) ∧
    (FP7.tokensOf text = [] → FP7.createEmbedding text = []) := by
  refine ⟨?_, fun w => FP7.tokensOf_shape text w, fun w => FP7.createEmbedding_value text w,
    FP7.createEmbedding_values_sum text, ?_⟩
  · intro w
    rw [FP7.keys_createEmbedding]
    exact List.mem_dedup
  · intro h
    simp [FP7.createEmbedding, h]

/-- Witness for C1: a concrete text with qualifying tokens, whose embedding
values sum to 1. -/
theorem c1_embedder_tf_map_witness :
    FP7.tokensOf ("Go read the library notes".toList) ≠ [] ∧
      ((FP7.createEmbedding ("Go read the library notes".toList)).map Prod.snd).sum = 1 :=
  ⟨by decide, (c1_embedder_tf_map _).2.2.2.1 (by decide)⟩

/-- C2 as stated is false on the code: the non-empty mapping `{aaa: 0}` has
zero magnitude, so its self-similarity is 0, not 1. -/
theorem c2_counterexample :
    ([(("aaa".toList : Str), (0 : ℚ))] ≠ ([] : List (Str × ℚ))) ∧
      FP7.calculateSimilarity [(("aaa".toList : Str), 0)] [(("aaa".toList : Str), 0)] ≠ 1 := by
  refine ⟨by simp, ?_⟩
  have h : FP7.normSq [(("aaa".toList : Str), 0)] = 0 := by
    norm_num [FP7.normSq, FP7.keysOf, FP7.lookup0]
  rw [FP7.calculateSimilarity, if_pos (Or.inl h)]
  norm_num

/-- C2 (amended): the part_007 cosine similarity is symmetric; self-similarity
is 1 for every mapping of nonzero magnitude (in particular for every mapping
with at least one nonzero value, which covers every non-empty Embedder
output); similarity is 0 whenever either argument is empty, and indeed
whenever either magnitude is 0; and for mappings with non-negative values the
result lies in [0, 1]. -/
theorem c2_cosine_properties :
    (∀ m1 m2 : List (Str × ℚ),
      FP7.calculateSimilarity m1 m2 = FP7.calculateSimilarity m2 m1) ∧
    (∀ m : List (Str × ℚ), FP7.normSq m ≠ 0 → FP7.calculateSimilarity m m = 1) ∧
    (∀ m : List (Str × ℚ),
      FP7.calculateSimilarity m [] = 0 ∧ FP7.calculateSimilarity [] m = 0) ∧
    (∀ m1 m2 : List (Str × ℚ), FP7.normSq m1 = 0 ∨ FP7.normSq m2 = 0 →
      FP7.calculateSimilarity m1 m2 = 0) ∧
    (∀ m1 m2 : List (Str × ℚ), FP7.NonnegVals m1 → FP7.NonnegVals m2 →
      0 ≤ FP7.calculateSimilarity m1 m2 ∧ FP7.calculateSimilarity m1 m2 ≤ 1) :=
  ⟨FP7.calcSim_comm, FP7.calcSim_self,
    fun m => ⟨FP7.calcSim_empty_right m, FP7.calcSim_empty_left m⟩,
    fun _ _ h => if_pos h,
    FP7.calcSim_bounds⟩

/-- Witness for C2 (amended) at a concrete mapping of nonzero magnitude. -/
theorem c2_cosine_properties_witness :
    FP7.calculateSimilarity [(("abc".toList : Str), (1 / 2 : ℚ))]
      [(("abc".toList : Str), (1 / 2 : ℚ))] = 1 :=
  c2_cosine_properties.2.1 _ (by norm_num [FP7.normSq, FP7.keysOf, FP7.lookup0])

/-- C3: an item passes the Relevance Filter exactly by the spec rule —
lowercased-query substring match on the item's text fields, or similarity
above 0.3 — subject to the per-type cap (taking the first matches) and, for
repositories, the project-keyword heuristic.  Soundness holds outright;
completeness holds whenever the matching items fit under the cap; and a note
whose title or content contains the lowercased query is included regardless
of its similarity score. -/
theorem c3_filter_characterisation :
    (∀ notes qe q (n : Note), n ∈ RAGService.findRelevantNotes notes qe q →
      n ∈ notes ∧ NoteRelevantSpec qe q n) ∧
    (∀ notes qe q (n : Note),
      (notes.filter (RAGService.noteMatches qe q)).length ≤ 3 →
      (n ∈ RAGService.findRelevantNotes notes qe q ↔ n ∈ notes ∧ NoteRelevantSpec qe q n)) ∧
    (∀ questions qe q (m : PlacementQuestion),
      m ∈ RAGService.findRelevantQuestions questions qe q →
      m ∈ questions ∧ QuestionRelevantSpec qe q m) ∧
    (∀ questions qe q (m : PlacementQuestion),
      (questions.filter (RAGService.questionMatches qe q)).length ≤ 2 →
      (m ∈ RAGService.findRelevantQuestions questions qe q ↔
        m ∈ questions ∧ QuestionRelevantSpec qe q m)) ∧
    (∀ repos qe q (r : GithubRepo), r ∈ RAGService.findRelevantRepos repos qe q →
      r ∈ repos ∧ RepoRelevantSpec q r) ∧
    (∀ notes qe q (n : Note), n ∈ notes →
      (containsL (lowerStr n.content) (lowerStr q) = true ∨
        containsL (lowerStr n.title) (lowerStr q) = true) →
      (notes.filter (RAGService.noteMatches qe q)).length ≤ 3 →
      n ∈ RAGService.findRelevantNotes notes qe q) := by
  have hnote : ∀ notes qe q (n : Note), n ∈ RAGService.findRelevantNotes notes qe q →
      n ∈ notes ∧ NoteRelevantSpec qe q n := by
    intro notes qe q n hn
    have h := List.mem_filter.1 (List.mem_of_mem_take hn)
    exact ⟨h.1, (RAGService.noteMatches_iff qe q n).1 h.2⟩
  have hq : ∀ questions qe q (m : PlacementQuestion),
      m ∈ RAGService.findRelevantQuestions questions qe q →
      m ∈ questions ∧ QuestionRelevantSpec qe q m := by
    intro questions qe q m hm
    have h := List.mem_filter.1 (List.mem_of_mem_take hm)
    exact ⟨h.1, (RAGService.questionMatches_iff qe q m).1 h.2⟩
  refine ⟨hnote, ?_, hq, ?_, ?_, ?_⟩
  · intro notes qe q n hlen
    rw [RAGService.findRelevantNotes, List.take_of_length_le hlen]
    rw [List.mem_filter, RAGService.noteMatches_iff]
  · intro questions qe q m hlen
    rw [RAGService.findRelevantQuestions, List.take_of_length_le hlen]
    rw [List.mem_filter, RAGService.questionMatches_iff]
  · intro repos qe q r hr
    simp only [RAGService.findRelevantRepos] at hr
    by_cases hcond : ((repos.filter (RAGService.repoMatches (lowerStr q))).isEmpty &&
        RAGService.isProjectQuery (lowerStr q) && !repos.isEmpty) = true
    · rw [if_pos hcond] at hr
      have h := List.mem_filter.1 (List.mem_of_mem_take hr)
      have hproj : RAGService.isProjectQuery (lowerStr q) = true := by
        simp only [Bool.and_eq_true] at hcond
        exact hcond.1.2
      exact ⟨h.1, Or.inr ⟨hproj, h.2⟩⟩
    · rw [if_neg hcond] at hr
      have h := List.mem_filter.1 (List.mem_of_mem_take hr)
      exact ⟨h.1, (RAGService.repoMatches_iff q r).1 h.2⟩
  · intro notes qe q n hmem hsub hlen
    rw [RAGService.findRelevantNotes, List.take_of_length_le hlen, List.mem_filter]
    refine ⟨hmem, ?_⟩
    rw [RAGService.noteMatches]
    rcases hsub with h | h <;> simp [h]

/-- Witness for C3: the scenario of the spec — the query `binary search`
against a note titled `Binary Search Tree traversal` is included through the
substring branch (its embedding is empty, so its similarity is 0). -/
theorem c3_filter_characterisation_witness :
    (⟨"Binary Search Tree traversal".toList, "notes about trees".toList, EmbStr.empty⟩ : Note) ∈
      RAGService.findRelevantNotes
        [⟨"Binary Search Tree traversal".toList, "notes about trees".toList, EmbStr.empty⟩]
        EmbStr.empty ("binary search".toList) :=
  c3_filter_characterisation.2.2.2.2.2 _ _ _ _ (by decide) (Or.inr (by decide)) (by decide)

/-- C4: when the query contains a project keyword, every analysed repository
of the collection passes the filter body regardless of similarity or textual
overlap (and is returned whenever the matches fit under the cap of 3); when
additionally no repository matches textually, the filter returns exactly the
first 3 analysed repositories; in particular a project-structure query
against a single analysed repository returns that repository. -/
theorem c4_project_keyword_heuristic :
    (∀ (repos : List GithubRepo) (q : Str) (r : GithubRepo),
      RAGService.isProjectQuery (lowerStr q) = true → r ∈ repos →
      r.analysis.isSome = true →
      r ∈ repos.filter (RAGService.repoMatches (lowerStr q))) ∧
    (∀ (repos : List GithubRepo) (qe : EmbStr) (q : Str),
      RAGService.isProjectQuery (lowerStr q) = true →
      (∀ r ∈ repos, RAGService.repoExactMatch (lowerStr q) r = false) →
      RAGService.findRelevantRepos repos qe q =
        (repos.filter (fun r => r.analysis.isSome)).take 3) ∧
    (∀ (qe : EmbStr) (q : Str) (r : GithubRepo),
      RAGService.isProjectQuery (lowerStr q) = true → r.analysis.isSome = true →
      r ∈ RAGService.findRelevantRepos [r] qe q) := by
  have hmatch : ∀ (q : Str) (r : GithubRepo),
      RAGService.isProjectQuery (lowerStr q) = true → r.analysis.isSome = true →
      RAGService.repoMatches (lowerStr q) r = true := by
    intro q r hproj hsome
    rw [RAGService.repoMatches, hproj, hsome]
    simp
  refine ⟨?_, ?_, ?_⟩
  · intro repos q r hproj hmem hsome
    exact List.mem_filter.2 ⟨hmem, hmatch q r hproj hsome⟩
  · intro repos qe q hproj hnone
    simp only [RAGService.findRelevantRepos]
    have hfe : repos.filter (RAGService.repoMatches (lowerStr q)) =
        repos.filter (fun r => r.analysis.isSome) := by
      apply List.filter_congr
      intro r hr
      rw [RAGService.repoMatches, hnone r hr, hproj]
      simp
    rw [hfe]
    split <;> rfl
  · intro qe q r hproj hsome
    simp only [RAGService.findRelevantRepos, List.filter_cons, hmatch q r hproj hsome,
      if_true, List.filter_nil]
    simp

/-- Witness for C4: the query `show me the project structure` against one
analysed repository with no textual overlap still includes that
repository. -/
theorem c4_project_keyword_heuristic_witness :
    (⟨"demo-app".toList, [], none, 0, some ⟨none, none, none, none⟩⟩ : GithubRepo) ∈
      RAGService.findRelevantRepos
        [⟨"demo-app".toList, [], none, 0, some ⟨none, none, none, none⟩⟩]
        EmbStr.empty ("show me the project structure".toList) :=
  c4_project_keyword_heuristic.2.2 _ _ _ (by decide) rfl

/-- C5: the Relevance Filter never returns more than its configured cap —
3 notes, 2 questions, 3 repositories — regardless of the input collection,
including through the repository fallback path. -/
theorem c5_result_caps :
    (∀ notes qe q, (RAGService.findRelevantNotes notes qe q).length ≤ 3) ∧
    (∀ questions qe q, (RAGService.findRelevantQuestions questions qe q).length ≤ 2) ∧
    (∀ repos qe q, (RAGService.findRelevantRepos repos qe q).length ≤ 3) := by
  refine ⟨fun notes qe q => List.length_take_le _ _,
    fun questions qe q => List.length_take_le _ _, fun repos qe q => ?_⟩
  simp only [RAGService.findRelevantRepos]
  split
  · exact List.length_take_le _ _
  · exact List.length_take_le _ _

/-- C6: for any filtered candidates, the Aggregator's output is the 5-element
prefix of the stable descending sort of the merged list (notes, then
questions, then repositories): it is sorted non-increasing by relevance, has
length at most 5, and relevance ties keep the original stable order — for
each relevance value, the sorted list restricted to that value equals the
merged list restricted to it. -/
theorem c6_aggregator_sorted_capped_stable (ns : List Note) (qs : List PlacementQuestion)
    (rs : List GithubRepo) (q : Str) :
    RAGService.rankSources (RAGService.mergedSources ns qs rs q) =
        (sortDescBy Source.relevance (RAGService.mergedSources ns qs rs q)).take 5 ∧
    (RAGService.rankSources (RAGService.mergedSources ns qs rs q)).Pairwise
        (fun a b => b.relevance ≤ a.relevance) ∧
    (RAGService.rankSources (RAGService.mergedSources ns qs rs q)).length ≤ 5 ∧
    (∀ v : ℚ,
      (sortDescBy Source.relevance (RAGService.mergedSources ns qs rs q)).filter
          (fun s => decide (s.relevance = v)) =
        (RAGService.mergedSources ns qs rs q).filter (fun s => decide (s.relevance = v))) :=
  ⟨rfl,
    List.Pairwise.sublist (List.take_sublist _ _) (sortDescBy_pairwise _ _),
    List.length_take_le _ _,
    fun v => sortDescBy_filter _ v _⟩

/-- C7: the relevance score of a candidate text equals the number of
lowercased whitespace-split query words occurring as substrings of the
lowercased text, divided by the total number of query words. -/
theorem c7_relevance_word_fraction (content query : Str) :
    RAGService.calculateRelevance content query =
      (((splitWs (lowerStr query)).countP (fun w => containsL (lowerStr content) w) : ℚ)) /
        ((splitWs (lowerStr query)).length : ℚ) := by
  simp only [RAGService.calculateRelevance]
  rw [foldl_if_count]
  norm_num

/-- C8: when the LLM call fails, the failure is absorbed inside
`GrokService.generateAnswer` and the fixed apology string is substituted, so
`searchAndAnswer` still returns a normal response whose `answer` equals the
fixed fallback string instead of throwing. -/
theorem c8_llm_failure_absorbed (sv : StorageView) (query : Str) :
    ∃ r : RAGResponse,
      RAGService.searchAndAnswer (Except.ok sv) LLMResult.error query = Except.ok r ∧
        r.answer = GrokService.fallbackMsg :=
  ⟨_, rfl, rfl⟩

/-- C9: `searchAndAnswer` either returns a complete result (answer plus
sources) or fails with the single generic `Failed to generate answer` error:
a storage failure is caught at the top level and re-raised as that one
condition, an LLM failure is absorbed, and no partial result exists. -/
theorem c9_all_or_nothing :
    (∀ (store : Except Unit StorageView) (llm : LLMResult) (query : Str),
      (∃ r : RAGResponse, RAGService.searchAndAnswer store llm query = Except.ok r) ∨
        RAGService.searchAndAnswer store llm query = Except.error RAGService.failMsg) ∧
    (∀ (e : Unit) (llm : LLMResult) (query : Str),
      RAGService.searchAndAnswer (Except.error e) llm query =
        Except.error RAGService.failMsg) := by
  constructor
  · intro store llm query
    cases store with
    | error e => exact Or.inr rfl
    | ok sv => exact Or.inl ⟨_, rfl⟩
  · intro e llm query
    rfl

/-- C10: the similarity helper returns 0 whenever either embedding argument
is missing/empty or malformed (and, being a total function, never throws);
consequently a note or question whose stored embedding is missing or empty
can only enter the retrieval result through the substring branch. -/
theorem c10_degenerate_embeddings :
    (∀ e : EmbStr,
      RAGService.calculateTextSimilarity EmbStr.empty e = 0 ∧
      RAGService.calculateTextSimilarity e EmbStr.empty = 0 ∧
      RAGService.calculateTextSimilarity EmbStr.malformed e = 0 ∧
      RAGService.calculateTextSimilarity e EmbStr.malformed = 0) ∧
    (∀ notes qe q (n : Note), n ∈ RAGService.findRelevantNotes notes qe q →
      n.embedding = EmbStr.empty →
      containsL (lowerStr n.content) (lowerStr q) = true ∨
        containsL (lowerStr n.title) (lowerStr q) = true) ∧
    (∀ questions qe q (m : PlacementQuestion),
      m ∈ RAGService.findRelevantQuestions questions qe q →
      m.embedding = EmbStr.empty →
      containsL (lowerStr m.question) (lowerStr q) = true ∨
        containsL (lowerStr m.topic) (lowerStr q) = true) := by
  refine ⟨fun e => ⟨RAGService.calcTextSim_empty_left e, RAGService.calcTextSim_empty_right e,
    RAGService.calcTextSim_malformed_left e, RAGService.calcTextSim_malformed_right e⟩,
    ?_, ?_⟩
  · intro notes qe q n hn hemb
    have hm := (List.mem_filter.1 (List.mem_of_mem_take hn)).2
    rw [RAGService.noteMatches, hemb] at hm
    simp only [RAGService.simGT03_empty_left, Bool.or_false, Bool.or_eq_true] at hm
    exact hm
  · intro questions qe q m hmem hemb
    have hm := (List.mem_filter.1 (List.mem_of_mem_take hmem)).2
    rw [RAGService.questionMatches, hemb] at hm
    simp only [RAGService.simGT03_empty_left, Bool.or_false, Bool.or_eq_true] at hm
    exact hm

/-- Witness for C10: a note with an empty stored embedding retrieved for a
concrete query — the conclusion exhibits its substring match. -/
theorem c10_degenerate_embeddings_witness :
    containsL (lowerStr ("binary search tree notes".toList))
        (lowerStr ("binary".toList)) = true ∨
      containsL (lowerStr ("Trees".toList)) (lowerStr ("binary".toList)) = true :=
  c10_degenerate_embeddings.2.1
    [⟨"Trees".toList, "binary search tree notes".toList, EmbStr.empty⟩] EmbStr.empty
    ("binary".toList) ⟨"Trees".toList, "binary search tree notes".toList, EmbStr.empty⟩
    (by decide) rfl
